import Mathlib

/-!
Verification of the natural-language specification of two classes of the
repository against their source:
  * `TGLabel` (src/gui/inc/TGLabel.h), a GUI label widget;
  * `RooLagrangianMorphFunc` (src/roofit/roofit/inc/RooLagrangianMorphFunc.h),
    an EFT morphing function.
The source provides the class headers; inline member-function bodies are
embedded directly, and the handful of members whose bodies are absent from
the source tree are modelled from the spec, as marked in their doc comments.
-/

set_option maxHeartbeats 1000000

/-! ## Part 1: the TGLabel widget (src/gui/inc/TGLabel.h) -/

/-- The machine width of the C++ `UInt_t` type (32 bits). -/
def uintMod : Nat := 2 ^ 32

/-- Embedding of `TGDimension` (a width/height pair of `UInt_t`). -/
structure TGDimension where
  fWidth : Nat
  fHeight : Nat
deriving DecidableEq, Repr

/-- Embedding of the label-specific state of `TGLabel`
(protected data members declared at TGLabel.h lines 39-46):
`fText` (label text), `fTWidth` (text width), `fTHeight` (text height),
`fTMode` (text drawing mode / justification), `fTextChanged`
(has-text-changed flag), `fNormGC` (graphics context handle used for
drawing, which carries the drawing color), `fFontStruct` (font handle),
`fHasOwnFont` (whether the font is defined locally). -/
structure TGLabel where
  fText : String
  fTWidth : Nat
  fTHeight : Nat
  fTMode : Int
  fTextChanged : Bool
  fNormGC : Nat
  fFontStruct : Nat
  fHasOwnFont : Bool
deriving DecidableEq, Repr

/-- Well-formedness of a `TGLabel` state: the `UInt_t` members hold
32-bit values and the handle members are machine words. -/
def TGLabel.wf (l : TGLabel) : Prop :=
  l.fTWidth < uintMod ∧ l.fTHeight < uintMod

instance (l : TGLabel) : Decidable l.wf := by
  unfold TGLabel.wf; infer_instance

/-- Embedding of `TGLabel::SetTextJustify` (TGLabel.h line 74):
`void SetTextJustify(Int_t tmode) { fTMode = tmode; }`. -/
def TGLabel.SetTextJustify (l : TGLabel) (tmode : Int) : TGLabel :=
  { l with fTMode := tmode }

/-- Embedding of `TGLabel::GetDefaultSize` (TGLabel.h line 69):
`return TGDimension(fTWidth, fTHeight+1);` where the addition is
performed on `UInt_t` and therefore wraps modulo 2^32. -/
def TGLabel.GetDefaultSize (l : TGLabel) : TGDimension :=
  ⟨l.fTWidth, (l.fTHeight + 1) % uintMod⟩

/-- The five components of label state named by the spec sentence
"text, font, text color, justification mode, redraw-needed flag",
read off a `TGLabel`. The code stores no separate color member; the
drawing color lives in the graphics context `fNormGC`, which is taken
here as the color component, the reading most favourable to the spec. -/
def TGLabel.specView (l : TGLabel) : String × Nat × Nat × Int × Bool :=
  (l.fText, l.fFontStruct, l.fNormGC, l.fTMode, l.fTextChanged)

/-- A concrete label state used to exhibit counterexamples. -/
def labelA : TGLabel :=
  ⟨"hello", 10, 20, 0, false, 0, 0, false⟩

/-- A second label state agreeing with `labelA` on `specView` but
differing in the stored text width `fTWidth`. -/
def labelB : TGLabel :=
  ⟨"hello", 11, 20, 0, false, 0, 0, false⟩

/-- A well-formed label whose stored text height is the largest
`UInt_t` value, so that the `fTHeight+1` in `GetDefaultSize` wraps. -/
def labelMaxH : TGLabel :=
  ⟨"hello", 10, uintMod - 1, 0, false, 0, 0, false⟩

/-- C2 counterexample: the five spec-named components (text, font,
color/graphics context, justification, redraw flag) do not determine a
`TGLabel` state — `labelA` and `labelB` agree on all five yet are
different label states, differing in the stored text width `fTWidth`.
Hence the label state does not consist of exactly those five components. -/
theorem TGLabel_specView_not_injective :
    TGLabel.specView labelA = TGLabel.specView labelB ∧ labelA ≠ labelB := by
  refine ⟨rfl, ?_⟩
  intro h
  have hw : labelA.fTWidth = labelB.fTWidth := congrArg TGLabel.fTWidth h
  simp [labelA, labelB] at hw

/-- C2 (amended): every `TGLabel` object carries exactly eight
label-specific components — the text string, the stored text width and
text height, the justification mode, the text-changed (redraw) flag,
the graphics context carrying the drawing color, the font, and the
font-ownership flag; these eight jointly determine the label state. -/
theorem TGLabel_state_eq_of_components (l₁ l₂ : TGLabel)
    (htext : l₁.fText = l₂.fText)
    (hw : l₁.fTWidth = l₂.fTWidth)
    (hh : l₁.fTHeight = l₂.fTHeight)
    (hm : l₁.fTMode = l₂.fTMode)
    (hc : l₁.fTextChanged = l₂.fTextChanged)
    (hgc : l₁.fNormGC = l₂.fNormGC)
    (hf : l₁.fFontStruct = l₂.fFontStruct)
    (hof : l₁.fHasOwnFont = l₂.fHasOwnFont) : l₁ = l₂ := by
  cases l₁
  cases l₂
  simp_all

/-- C2 witness: the eight components determine the state at a concrete
pair of labels. -/
theorem TGLabel_state_eq_of_components_witness : labelA = labelA :=
  TGLabel_state_eq_of_components labelA labelA rfl rfl rfl rfl rfl rfl rfl rfl

/-- C5: for every label state and every justification mode,
`SetTextJustify` stores the mode in `fTMode` and leaves every other
member of the label — text, text width, text height, changed flag,
graphics context, font, font-ownership flag — unchanged; it performs no
computation of its own. -/
theorem TGLabel_SetTextJustify_only_fTMode (l : TGLabel) (tmode : Int) :
    (l.SetTextJustify tmode).fTMode = tmode ∧
    (l.SetTextJustify tmode).fText = l.fText ∧
    (l.SetTextJustify tmode).fTWidth = l.fTWidth ∧
    (l.SetTextJustify tmode).fTHeight = l.fTHeight ∧
    (l.SetTextJustify tmode).fTextChanged = l.fTextChanged ∧
    (l.SetTextJustify tmode).fNormGC = l.fNormGC ∧
    (l.SetTextJustify tmode).fFontStruct = l.fFontStruct ∧
    (l.SetTextJustify tmode).fHasOwnFont = l.fHasOwnFont := by
  refine ⟨rfl, rfl, rfl, rfl, rfl, rfl, rfl, rfl⟩

/-- C7 counterexample: at the well-formed label `labelMaxH`, whose
stored text height is the largest `UInt_t` value 2^32 - 1, the `UInt_t`
addition `fTHeight+1` inside `GetDefaultSize` wraps to 0, so the
returned height is not `fTHeight` plus one. -/
theorem TGLabel_GetDefaultSize_overflow :
    labelMaxH.wf ∧
    labelMaxH.GetDefaultSize.fHeight ≠ labelMaxH.fTHeight + 1 := by
  constructor
  · decide
  · decide

/-- C7 (amended): for every label, `GetDefaultSize` returns the width
`fTWidth` and the height `(fTHeight + 1) % 2^32`; whenever the stored
text height is below the largest `UInt_t` value — in particular for all
realistic text heights — the returned height is exactly `fTHeight`
plus one. -/
theorem TGLabel_GetDefaultSize_eq (l : TGLabel)
    (h : l.fTHeight + 1 < uintMod) :
    l.GetDefaultSize.fWidth = l.fTWidth ∧
    l.GetDefaultSize.fHeight = l.fTHeight + 1 := by
  refine ⟨rfl, ?_⟩
  simp only [TGLabel.GetDefaultSize]
  exact Nat.mod_eq_of_lt h

/-- C7 witness: `GetDefaultSize` at the concrete label `labelA`
(text height 20) returns width 10 and height 21. -/
theorem TGLabel_GetDefaultSize_eq_witness :
    labelA.GetDefaultSize.fWidth = labelA.fTWidth ∧
    labelA.GetDefaultSize.fHeight = labelA.fTHeight + 1 :=
  TGLabel_GetDefaultSize_eq labelA (by decide)

/-! ## Part 2: RooLagrangianMorphFunc (src/roofit/roofit/inc/RooLagrangianMorphFunc.h) -/

/-- Embedding of `RooLagrangianMorphFunc::ParamSet`
(`std::map<const std::string, double>`), with doubles embedded as exact
rationals. -/
abbrev ParamSet : Type := List (String × ℚ)

/-- Embedding of `RooLagrangianMorphFunc::FlagSet`
(`std::map<const std::string, int>`). -/
abbrev FlagSet : Type := List (String × Int)

/-- Embedding of `RooLagrangianMorphFunc::ParamMap`
(`std::map<const std::string, ParamSet>`). -/
abbrev ParamMap : Type := List (String × ParamSet)

/-- Embedding of `RooLagrangianMorphFunc::FlagMap`
(`std::map<const std::string, FlagSet>`). -/
abbrev FlagMap : Type := List (String × FlagSet)

/-- Embedding of `RooLagrangianMorphFunc::Config` (header lines 87-158):
the private data members declared at lines 143-157.  `RooArgList`-valued
members are embedded as lists of argument names. -/
structure Config where
  _obsName : String
  _fileName : String
  _folderlist : List String
  _folderNames : List String
  _paramCards : ParamMap
  _flagValues : FlagMap
  _vertices : List (List String)
  _couplings : List String
  _prodCouplings : List String
  _decCouplings : List String
  _observables : List String
  _binWidths : List String
  _configDiagrams : List (List (List String))
  _nonInterfering : List (List String)
  _allowNegativeYields : Bool
deriving DecidableEq, Repr

/-- Embedding of the default constructor `Config() {}` together with the
in-class member initializer `_allowNegativeYields = true` (line 157);
the remaining members are default-initialised empty. -/
def Config.default : Config :=
  ⟨"", "", [], [], [], [], [], [], [], [], [], [], [], [], true⟩

/-- Embedding of `Config::IsAllowNegativeYields` (line 114):
`return this->_allowNegativeYields;`. -/
def Config.IsAllowNegativeYields (c : Config) : Bool :=
  c._allowNegativeYields

/-- Modelled from the spec: the body of `Config::allowNegativeYields`
(declared at line 99, body absent from the source tree); the setter
stores its argument in the `_allowNegativeYields` member. -/
def Config.allowNegativeYields (c : Config) (b : Bool) : Config :=
  { c with _allowNegativeYields := b }

/-- Embedding of `Config::getFolderNames` (line 134):
`return _folderNames;`. -/
def Config.getFolderNames (c : Config) : List String :=
  c._folderNames

/-- Embedding of `Config::nSamples` (line 138):
`return this->_folderNames.size();`. -/
def Config.nSamples (c : Config) : Int :=
  (c._folderNames.length : Int)

/-- Embedding of `Config::getCouplings` (line 110):
`return this->_couplings;`. -/
def Config.getCouplings (c : Config) : List String :=
  c._couplings

/-- Embedding of `Config::getParamCards` (line 131):
`return this->_paramCards;`. -/
def Config.getParamCards (c : Config) : ParamMap :=
  c._paramCards

/-- Modelled from the spec: the cache element held by the
`RooObjCacheManager _cacheMgr` (class `CacheElem`, declared at line 247
with its body absent from the source tree).  Per the spec, the cache
holds the computed morphing ingredients: the coefficient matrix of the
basis-morphing system and the computed per-sample morphing weights. -/
structure CacheElem (n : ℕ) where
  _matrix : Matrix (Fin n) (Fin n) ℚ
  _weights : List (String × ℚ)

/-- Embedding of the data members of `RooLagrangianMorphFunc`
(header lines 251, 259 and 344-356): `_ownParameters`, the mutable
cache manager `_cacheMgr` (holding at most one cache element), `_scale`,
`_sampleMap`, the proxy lists `_physics`, `_operators`, `_observables`,
`_binWidths`, `_flags`, the embedded `_config`, `_diagrams`,
`_curNormSet` and `_nonInterfering`.  The parameter `n` is the dimension
of the coefficient matrix (the number of morphing basis samples). -/
structure RooLagrangianMorphFunc (n : ℕ) where
  _ownParameters : Bool
  _cacheMgr : Option (CacheElem n)
  _scale : ℚ
  _sampleMap : List (String × Int)
  _physics : List String
  _operators : List String
  _observables : List String
  _binWidths : List String
  _flags : List String
  _config : Config
  _diagrams : List (List (List String))
  _curNormSet : Option (List String)
  _nonInterfering : List (List String)

/-- Embedding of `RooLagrangianMorphFunc::nSamples` (line 326):
`return this->_config.getFolderNames().size();`. -/
def RooLagrangianMorphFunc.nSamples {n : ℕ} (f : RooLagrangianMorphFunc n) : Int :=
  ((f._config.getFolderNames).length : Int)

/-- Matrix inversion over the rationals by the adjugate formula,
`(det M)⁻¹ • adjugate M`; agrees with the mathematical inverse whenever
the determinant is nonzero. -/
def invMat {n : ℕ} (M : Matrix (Fin n) (Fin n) ℚ) : Matrix (Fin n) (Fin n) ℚ :=
  (M.det)⁻¹ • M.adjugate

/-- Modelled from the spec: the body of
`RooLagrangianMorphFunc::getMatrix` (declared at line 226, body absent
from the source tree); it returns the coefficient matrix of the
basis-morphing system held in the cache (the zero matrix when the cache
has not been built). -/
def RooLagrangianMorphFunc.getMatrix {n : ℕ} (f : RooLagrangianMorphFunc n) :
    Matrix (Fin n) (Fin n) ℚ :=
  match f._cacheMgr with
  | some c => c._matrix
  | none => 0

/-- Modelled from the spec: the body of
`RooLagrangianMorphFunc::getInvertedMatrix` (declared at line 227, body
absent from the source tree); per the spec the basis-morphing step
inverts the coefficient matrix, so it returns the inverse of the matrix
returned by `getMatrix`. -/
def RooLagrangianMorphFunc.getInvertedMatrix {n : ℕ} (f : RooLagrangianMorphFunc n) :
    Matrix (Fin n) (Fin n) ℚ :=
  invMat f.getMatrix

/-- Modelled from the spec: a `RooLagrangianMorphFunc` is fully
initialised when its cache element has been built and the coefficient
matrix of the basis-morphing system is invertible. -/
def RooLagrangianMorphFunc.fullyInitialised {n : ℕ} (f : RooLagrangianMorphFunc n) : Prop :=
  f._cacheMgr.isSome ∧ f.getMatrix.det ≠ 0

/-- C1: for every fully initialised morphing function, the matrix
returned by `getInvertedMatrix` is the two-sided matrix inverse of the
coefficient matrix returned by `getMatrix`: both products equal the
identity matrix. -/
theorem RooLagrangianMorphFunc_getInvertedMatrix_inverse {n : ℕ}
    (f : RooLagrangianMorphFunc n) (h : f.fullyInitialised) :
    f.getMatrix * f.getInvertedMatrix = 1 ∧
    f.getInvertedMatrix * f.getMatrix = 1 := by
  have hdet : IsUnit f.getMatrix.det := isUnit_iff_ne_zero.mpr h.2
  have hinv : f.getInvertedMatrix = (f.getMatrix)⁻¹ := by
    rw [Matrix.inv_def, Ring.inverse_eq_inv]
    rfl
  rw [hinv]
  exact ⟨Matrix.mul_nonsing_inv _ hdet, Matrix.nonsing_inv_mul _ hdet⟩

/-- A concrete fully initialised morphing-function state with a single
sample and coefficient matrix `(2)`. -/
def morphW : RooLagrangianMorphFunc 1 :=
  ⟨false, some ⟨Matrix.of (fun _ _ => (2 : ℚ)), [("sample1", 1/2)]⟩, 1,
   [("sample1", 0)], [], [], [], [], [],
   { Config.default with _folderNames := ["sample1"] }, [], none, []⟩

/-- C1 witness: the concrete state `morphW` is fully initialised (its
coefficient matrix `(2)` has determinant 2) and the theorem yields that
the product of its matrix and inverted matrix is the identity. -/
theorem RooLagrangianMorphFunc_getInvertedMatrix_inverse_witness :
    morphW.fullyInitialised ∧
    (morphW.getMatrix * morphW.getInvertedMatrix = 1 ∧
     morphW.getInvertedMatrix * morphW.getMatrix = 1) := by
  have h : morphW.fullyInitialised := by
    constructor
    · rfl
    · show (morphW.getMatrix).det ≠ 0
      rw [Matrix.det_fin_one]
      show (2 : ℚ) ≠ 0
      norm_num
  exact ⟨h, RooLagrangianMorphFunc_getInvertedMatrix_inverse morphW h⟩

/-- The five components of morphing-function state named by the spec
sentence "coupling parameters, per-sample parameter cards, per-sample
weight formulas, a coefficient matrix, and a cache of computed morphing
weights", read off a `RooLagrangianMorphFunc`: the couplings and the
parameter cards live in the embedded `_config`, while the coefficient
matrix and the computed weights live in the cache element held by
`_cacheMgr`. -/
def RooLagrangianMorphFunc.specFiveView {n : ℕ} (f : RooLagrangianMorphFunc n) :
    List String × ParamMap × Option (CacheElem n) :=
  (f._config.getCouplings, f._config.getParamCards, f._cacheMgr)

/-- A concrete morphing-function state used to exhibit counterexamples. -/
def morphA : RooLagrangianMorphFunc 1 :=
  ⟨false, none, 1, [("sample1", 0)], [], [], [], [], [],
   { Config.default with _folderNames := ["sample1"] }, [], none, []⟩

/-- A second morphing-function state agreeing with `morphA` on
`specFiveView` but differing in the stored scale factor `_scale`. -/
def morphB : RooLagrangianMorphFunc 1 :=
  ⟨false, none, 2, [("sample1", 0)], [], [], [], [], [],
   { Config.default with _folderNames := ["sample1"] }, [], none, []⟩

/-- C3 counterexample: the five spec-named components (couplings,
parameter cards, weight formulas, coefficient matrix, weight cache) do
not determine a `RooLagrangianMorphFunc` state — `morphA` and `morphB`
agree on all five yet are different states, differing in the stored
scale factor `_scale`.  Hence the object's state does not consist of
exactly those five components. -/
theorem RooLagrangianMorphFunc_specFiveView_not_injective :
    RooLagrangianMorphFunc.specFiveView morphA =
      RooLagrangianMorphFunc.specFiveView morphB ∧ morphA ≠ morphB := by
  refine ⟨rfl, ?_⟩
  intro h
  have hs : morphA._scale = morphB._scale :=
    congrArg RooLagrangianMorphFunc._scale h
  simp [morphA, morphB] at hs

/-- C3 (amended): every `RooLagrangianMorphFunc` object carries, besides
the five spec-named components (couplings and parameter cards inside its
configuration, weight formulas and coefficient matrix inside its cache,
and the cache itself), also a scale factor, a sample-index map, the
physics/operator/observable/bin-width/flag argument lists, the full
embedded configuration, the diagrams, the current normalization set and
the non-interfering groups; these thirteen members jointly determine the
state. -/
theorem RooLagrangianMorphFunc_state_eq_of_components {n : ℕ}
    (f₁ f₂ : RooLagrangianMorphFunc n)
    (h₁ : f₁._ownParameters = f₂._ownParameters)
    (h₂ : f₁._cacheMgr = f₂._cacheMgr)
    (h₃ : f₁._scale = f₂._scale)
    (h₄ : f₁._sampleMap = f₂._sampleMap)
    (h₅ : f₁._physics = f₂._physics)
    (h₆ : f₁._operators = f₂._operators)
    (h₇ : f₁._observables = f₂._observables)
    (h₈ : f₁._binWidths = f₂._binWidths)
    (h₉ : f₁._flags = f₂._flags)
    (h₁₀ : f₁._config = f₂._config)
    (h₁₁ : f₁._diagrams = f₂._diagrams)
    (h₁₂ : f₁._curNormSet = f₂._curNormSet)
    (h₁₃ : f₁._nonInterfering = f₂._nonInterfering) : f₁ = f₂ := by
  cases f₁
  cases f₂
  simp_all

/-- C3 witness: the thirteen members determine the state at a concrete
morphing-function state. -/
theorem RooLagrangianMorphFunc_state_eq_of_components_witness :
    morphA = morphA :=
  RooLagrangianMorphFunc_state_eq_of_components morphA morphA
    rfl rfl rfl rfl rfl rfl rfl rfl rfl rfl rfl rfl rfl

/-- C8: for every morphing function, the member function `nSamples`
(line 326, counting `_config.getFolderNames()`) returns the same value
as `nSamples` of its embedded `Config` (line 138, counting
`_folderNames` directly), namely the number of folder names stored in
the configuration; the two definitions are equivalent. -/
theorem RooLagrangianMorphFunc_nSamples_eq_config {n : ℕ}
    (f : RooLagrangianMorphFunc n) :
    f.nSamples = f._config.nSamples ∧
    f._config.nSamples = (f._config._folderNames.length : Int) :=
  ⟨rfl, rfl⟩

/-- C9: a default-constructed `Config` allows negative yields
(`IsAllowNegativeYields` returns `true`, from the member initializer
`_allowNegativeYields = true`), and after `allowNegativeYields b` the
getter returns `b`. -/
theorem Config_allowNegativeYields_default_and_set :
    Config.default.IsAllowNegativeYields = true ∧
    ∀ (c : Config) (b : Bool),
      (c.allowNegativeYields b).IsAllowNegativeYields = b :=
  ⟨rfl, fun _ _ => rfl⟩

/-! ## Part 3: the on-disk input format (header comment lines 22-48,
`readParameters` and `collectInputs`) -/

/-- Modelled from the spec: the on-disk objects consumed by the morphing
function through `TDirectory` (bodies of `Config::readParameters` and
`collectInputs` are absent from the source tree; the layout is the one
documented in the header comment, lines 22-48).  A `TObj` is either a
`TH1` histogram — embedded as a list of labelled bins, as used by the
`param_card` histograms carrying named EFT parameter values — or a
directory/folder holding further objects. -/
inductive TObj where
  | th1 (nm : String) (bins : List (String × ℚ)) : TObj
  | dir (nm : String) (entries : List TObj) : TObj

/-- The name of an on-disk object. -/
def TObj.name : TObj → String
  | .th1 nm _ => nm
  | .dir nm _ => nm

/-- The entries of an on-disk object (empty for a histogram). -/
def TObj.entries : TObj → List TObj
  | .th1 _ _ => []
  | .dir _ es => es

/-- Look up the first object with the given name in a list of entries,
the embedding of `TDirectory::Get` restricted to one level. -/
def findEntry : List TObj → String → Option TObj
  | [], _ => none
  | t :: ts, nm => if t.name = nm then some t else findEntry ts nm

/-- Modelled from the spec: reading one sample's parameter card — the
sample subdirectory of the given name must exist in the input directory
and contain a `TH1` named `param_card`, whose labelled bins are the
sample's EFT parameter values. -/
def readSample (d : TObj) (fn : String) : Option ParamSet :=
  match findEntry d.entries fn with
  | some (TObj.dir _ es) =>
    match findEntry es "param_card" with
    | some (TObj.th1 _ bins) => some bins
    | _ => none
  | _ => none

/-- Modelled from the spec: reading the parameter cards of all samples
of the given folder-name list from the input directory, failing if any
sample subdirectory or its `param_card` is missing. -/
def readParamCards (d : TObj) : List String → Option ParamMap
  | [] => some []
  | fn :: fns =>
    match readSample d fn with
    | some bins =>
      match readParamCards d fns with
      | some rest => some ((fn, bins) :: rest)
      | none => none
    | none => none

/-- Modelled from the spec: the body of `Config::readParameters`
(declared at line 140, body absent from the source tree); it reads the
per-sample parameter cards for the configured folder names from the
input directory and stores them in `_paramCards`. -/
def Config.readParameters (c : Config) (d : TObj) : Option Config :=
  match readParamCards d c._folderNames with
  | some pm => some { c with _paramCards := pm }
  | none => none

/-- Descend from an object along a list of path segments, entering one
named entry per segment. -/
def lookupPath (t : TObj) : List String → Option TObj
  | [] => some t
  | p :: ps =>
    match findEntry t.entries p with
    | some t₂ => lookupPath t₂ ps
    | none => none

/-- Modelled from the spec: histogram addressing as used by
`collectInputs` — a histogram of a sample is retrieved by its
slash-separated path within the sample subdirectory, e.g.
`histogram` or `subfolder1/histogram2`. -/
def getHistogram (d : TObj) (sample : String) (path : String) : Option TObj :=
  match findEntry d.entries sample with
  | some s => lookupPath s (path.splitOn "/")
  | none => none

/-- An object found by `findEntry` bears the name it was looked up by. -/
theorem findEntry_name (ts : List TObj) (nm : String) (t : TObj)
    (h : findEntry ts nm = some t) : t.name = nm := by
  induction ts with
  | nil => simp [findEntry] at h
  | cons hd tl ih =>
    by_cases hnm : hd.name = nm
    · simp [findEntry, hnm] at h
      rw [← h]
      exact hnm
    · simp [findEntry, hnm] at h
      exact ih h

/-- Inversion of `readSample`: success means the input directory holds a
sample subdirectory of the requested name containing a `TH1` named
`param_card` with the returned bins. -/
theorem readSample_eq_some (d : TObj) (fn : String) (bins : ParamSet)
    (h : readSample d fn = some bins) :
    ∃ es, findEntry d.entries fn = some (TObj.dir fn es) ∧
      findEntry es "param_card" = some (TObj.th1 "param_card" bins) := by
  unfold readSample at h
  split at h
  case h_1 nm es heq =>
    have hname : nm = fn := findEntry_name _ _ _ heq
    subst hname
    split at h
    case h_1 nm₂ bins₂ heq₂ =>
      have hname₂ : nm₂ = "param_card" := findEntry_name _ _ _ heq₂
      subst hname₂
      exact ⟨es, heq, by rw [heq₂, Option.some_inj.mp h]⟩
    case h_2 => exact absurd h (by simp)
  case h_2 => exact absurd h (by simp)

/-- Success of `readParamCards` yields, for every requested folder name,
a sample subdirectory with a `param_card` histogram whose bins are the
values recorded in the returned map. -/
theorem readParamCards_structure (d : TObj) (fns : List String)
    (pm : ParamMap) (h : readParamCards d fns = some pm) :
    ∀ fn ∈ fns, ∃ es bins,
      findEntry d.entries fn = some (TObj.dir fn es) ∧
      findEntry es "param_card" = some (TObj.th1 "param_card" bins) ∧
      List.lookup fn pm = some bins := by
  induction fns generalizing pm with
  | nil => intro fn hfn; simp at hfn
  | cons hd tl ih =>
    intro fn hfn
    unfold readParamCards at h
    split at h
    case h_1 bins heq =>
      split at h
      case h_1 rest heqr =>
        have hpm : pm = (hd, bins) :: rest := (Option.some_inj.mp h).symm
        subst hpm
        by_cases hfe : fn = hd
        · subst hfe
          obtain ⟨es, h₁, h₂⟩ := readSample_eq_some d fn bins heq
          exact ⟨es, bins, h₁, h₂, by simp [List.lookup]⟩
        · have hmem : fn ∈ tl := by
            cases hfn with
            | head => exact absurd rfl hfe
            | tail _ htl => exact htl
          obtain ⟨es, bins₂, h₁, h₂, h₃⟩ := ih rest heqr fn hmem
          refine ⟨es, bins₂, h₁, h₂, ?_⟩
          simp only [List.lookup, beq_eq_false_iff_ne.mpr hfe]
          exact h₃
      case h_2 => exact absurd h (by simp)
    case h_2 => exact absurd h (by simp)

/-- C4: every input accepted by `Config.readParameters` (called by
`RooLagrangianMorphFunc::readParameters`) is a directory containing one
subdirectory per configured sample name, each sample subdirectory
holding a `TH1` named `param_card` whose labelled bins are that sample's
EFT parameter values as recorded in the resulting configuration; and
histograms of a sample, arbitrarily nested in subfolders, are addressed
by their slash-separated path within the sample via `getHistogram`. -/
theorem Config_readParameters_accepted_structure (c : Config) (d : TObj)
    (c₂ : Config) (h : c.readParameters d = some c₂) :
    ∀ fn ∈ c._folderNames, ∃ es bins,
      findEntry d.entries fn = some (TObj.dir fn es) ∧
      findEntry es "param_card" = some (TObj.th1 "param_card" bins) ∧
      List.lookup fn c₂._paramCards = some bins ∧
      ∀ path : String,
        getHistogram d fn path = lookupPath (TObj.dir fn es) (path.splitOn "/") := by
  intro fn hfn
  unfold Config.readParameters at h
  split at h
  case h_1 pm heq =>
    obtain ⟨es, bins, h₁, h₂, h₃⟩ := readParamCards_structure d _ pm heq fn hfn
    refine ⟨es, bins, h₁, h₂, ?_, ?_⟩
    · rw [← Option.some_inj.mp h]
      exact h₃
    · intro path
      unfold getHistogram
      rw [h₁]
  case h_2 => exact absurd h (by simp)

/-- A concrete sample subdirectory: a `param_card` histogram, a
top-level histogram, and a nested subfolder with another histogram. -/
def sampleDirW : TObj :=
  TObj.dir "sample1"
    [TObj.th1 "param_card" [("cHq3", 1)],
     TObj.th1 "histogram1" [("bin1", 5)],
     TObj.dir "subfolder1" [TObj.th1 "histogram2" [("bin1", 7)]]]

/-- A concrete input directory holding one sample. -/
def inputDirW : TObj := TObj.dir "input" [sampleDirW]

/-- A concrete configuration listing the one sample folder. -/
def configW : Config :=
  { Config.default with _folderNames := ["sample1"] }

/-- The configuration produced by reading `inputDirW` with `configW`:
the parameter card of `sample1` has been stored in `_paramCards`. -/
def configWout : Config :=
  { configW with _paramCards := [("sample1", [("cHq3", 1)])] }

/-- C4 witness: reading the concrete input directory succeeds and the
theorem yields the documented layout for the sample `sample1`. -/
theorem Config_readParameters_accepted_structure_witness :
    configW.readParameters inputDirW = some configWout ∧
    "sample1" ∈ configW._folderNames ∧
    (∃ es bins,
      findEntry inputDirW.entries "sample1" = some (TObj.dir "sample1" es) ∧
      findEntry es "param_card" = some (TObj.th1 "param_card" bins) ∧
      List.lookup "sample1" configWout._paramCards = some bins ∧
      ∀ path : String,
        getHistogram inputDirW "sample1" path =
          lookupPath (TObj.dir "sample1" es) (path.splitOn "/")) := by
  have hEq : configW.readParameters inputDirW = some configWout := by decide
  have hMem : "sample1" ∈ configW._folderNames := by decide
  exact ⟨hEq, hMem,
    Config_readParameters_accepted_structure configW inputDirW configWout hEq
      "sample1" hMem⟩
